import Mathlib

/-
Shallow embedding of the MPC orchestrator core
(src/ai-agent-implementation/src/mpc/: MPCServer.js, MPCSecurityGovernance.js,
MPCManager.js).

Modelling conventions:
* JS numbers used as computation results are modelled as ℚ.
* Wall-clock times (new Date(), Date.now()) and fresh ids (crypto.randomUUID())
  are passed in as explicit parameters.
* The simulated party transport (sendShareToParty / getResultFromParty) is a
  pluggable collaborator in the source (each call independently succeeds or
  fails); it is modelled as an oracle parameter returning Except.
* Thrown JS exceptions are modelled with Except String; the try/catch in
  executeSecureComputation becomes a total function on the Except value.
* Logger side effects (this.logger / logAction) change no observable state and
  are omitted.
-/

namespace MPC

/-- A participating party: `{id, name, authenticated}` (MPCServer.js parties,
MPCManager.test.js fixtures). -/
structure Party where
  id : String
  name : String
  authenticated : Bool
deriving DecidableEq

/-- One entry of the array returned by MPCServer.distributeShares: either
`{party, status: 'success'}` or `{party, status: 'error', error}`. -/
inductive DistributionResult where
  | success (party : String)
  | error (party : String) (errMsg : String)
deriving DecidableEq

def DistributionResult.isError : DistributionResult → Bool
  | .success _ => false
  | .error _ _ => true

/-- One entry of the array returned by MPCServer.collectResults: either
`{party, result, status: 'success'}` or `{party, status: 'error', error}`. -/
inductive PartyResult where
  | success (party : String) (result : ℚ)
  | error (party : String) (errMsg : String)
deriving DecidableEq

def PartyResult.isError : PartyResult → Bool
  | .success _ _ => false
  | .error _ _ => true

/-- MPCServer.distributeShares (lines 160-195): one delivery attempt per
currently-registered party; each attempt independently succeeds or fails
(the oracle models the simulated secure channel sendShareToParty). -/
def distributeShares (parties : List Party)
    (sendShareToParty : Party → Except String Unit) : List DistributionResult :=
  parties.map fun party =>
    match sendShareToParty party with
    | .ok _ => .success party.id
    | .error e => .error party.id e

/-- MPCServer.collectResults (lines 221-244): one retrieval per
currently-registered party (the oracle models getResultFromParty). -/
def collectResults (parties : List Party)
    (getResultFromParty : Party → Except String ℚ) : List PartyResult :=
  parties.map fun party =>
    match getResultFromParty party with
    | .ok r => .success party.id r
    | .error e => .error party.id e

/-- The `.filter(r => r.status === 'success').map(r => r.result)` step of
MPCServer.aggregateResults. -/
def validResults (partyResults : List PartyResult) : List ℚ :=
  partyResults.filterMap fun r =>
    match r with
    | .success _ v => some v
    | .error _ _ => none

/-- MPCServer.aggregateResults (lines 264-283): average the successfully
collected results; throw when there are none. -/
def aggregateResults (partyResults : List PartyResult) : Except String ℚ :=
  let valid := validResults partyResults
  if valid.length = 0 then
    .error "No valid results received from parties"
  else
    .ok (valid.sum / (valid.length : ℚ))

/-- The final result object of MPCServer.executeSecureComputation: either
`{computationId, task, result, partyResults, status: 'success'}` or
`{task, error, status: 'error'}`. -/
inductive ComputationResult where
  | success (computationId : String) (task : String) (result : ℚ)
      (partyResults : List PartyResult)
  | error (task : String) (errMsg : String)
deriving DecidableEq

/-- Steps 3-5 of MPCServer.executeSecureComputation (lines 302-328): the
session from the collection stage on (collect, threshold check, aggregate,
build the success object).  `parties.length` is the roster length used by the
threshold check at line 309. -/
def collectionPhaseE (parties : List Party)
    (getResultFromParty : Party → Except String ℚ)
    (task computationId : String) : Except String ComputationResult :=
  let partyResults := collectResults parties getResultFromParty
  let failedCollections := partyResults.filter fun r => r.isError
  if (failedCollections.length : ℚ) > (parties.length : ℚ) / 2 then
    .error "Too many parties failed during result collection"
  else
    match aggregateResults partyResults with
    | .ok finalResult => .ok (.success computationId task finalResult partyResults)
    | .error e => .error e

/-- The try-block of MPCServer.executeSecureComputation (lines 290-328):
distribute, distribution threshold check, then `collectionPhaseE`
(steps 3-5).  A thrown Error is an `Except.error` carrying its message. -/
def executeSecureComputationE (parties : List Party)
    (sendShareToParty : Party → Except String Unit)
    (getResultFromParty : Party → Except String ℚ)
    (task computationId : String) : Except String ComputationResult :=
  let distributionResults := distributeShares parties sendShareToParty
  let failedDistributions := distributionResults.filter fun r => r.isError
  if (failedDistributions.length : ℚ) > (parties.length : ℚ) / 2 then
    .error "Too many parties failed during share distribution"
  else
    collectionPhaseE parties getResultFromParty task computationId

/-- MPCServer.executeSecureComputation (lines 286-341) including its catch
clause (lines 329-340): any failure is caught and turned into
`{task, error, status: 'error'}`. -/
def executeSecureComputation (parties : List Party)
    (sendShareToParty : Party → Except String Unit)
    (getResultFromParty : Party → Except String ℚ)
    (task computationId : String) : ComputationResult :=
  match executeSecureComputationE parties sendShareToParty getResultFromParty
      task computationId with
  | .ok r => r
  | .error e => .error task e

/-! Security governance (MPCSecurityGovernance.js). -/

/-- A security policy value as stored by defineSecurityPolicy: the caller's
policy object plus createdAt/updatedAt stamps.  `dataSensitivityLevels` is
`none` when the policy object carries no such field (the `default` policy). -/
structure SecurityPolicy where
  name : String
  description : String
  requirePartyAuthentication : Bool
  minimumParties : Nat
  requireEncryption : Bool
  dataSensitivityLevels : Option (List String)
  createdAt : Nat
  updatedAt : Nat
deriving DecidableEq

/-- The operation object passed to validateOperation; only its `encrypted`
field is inspected. -/
structure Operation where
  encrypted : Bool
deriving DecidableEq

/-- One entry of the list returned by validateOperation:
`{policyId, policyName, passed, violations}`. -/
structure ValidationResult where
  policyId : String
  policyName : String
  passed : Bool
  violations : List String
deriving DecidableEq

/-- The `details` payload of an audit entry.  Payload fields not inspected by
any code path under verification (the opaque `updates` object of
policy_update, the compliance report body) are reduced to their identifying
parts. -/
inductive AuditDetails where
  | operationValidation (operation : Operation) (parties : List String)
      (dataSensitivity : String) (results : List ValidationResult)
  | policyUpdate (policyId : String)
  | policyRemove (policyId : String)
  | complianceCheck (standard : String) (findings : List String)
deriving DecidableEq

/-- An audit log entry `{id, timestamp, eventType, details}`
(MPCSecurityGovernance.logAuditEvent, lines 114-134). -/
structure AuditEntry where
  id : String
  timestamp : Nat
  eventType : String
  details : AuditDetails
deriving DecidableEq

/-- State of an MPCSecurityGovernance instance.  `securityPolicies` is a JS
Map: an insertion-ordered association list with unique keys. -/
structure MPCSecurityGovernance where
  securityPolicies : List (String × SecurityPolicy)
  auditLogs : List AuditEntry
deriving DecidableEq

/-- JS `Map.prototype.set`: update in place when the key is present
(keeping its position), append otherwise. -/
def mapSet (m : List (String × SecurityPolicy)) (k : String)
    (v : SecurityPolicy) : List (String × SecurityPolicy) :=
  if m.any fun kv => kv.1 = k then
    m.map fun kv => if kv.1 = k then (k, v) else kv
  else
    m ++ [(k, v)]

/-- MPCSecurityGovernance.logAuditEvent (lines 114-134): push the new entry,
then keep only the last 1000 entries (`auditLogs.slice(-1000)`). -/
def logAuditEvent (g : MPCSecurityGovernance) (eventType : String)
    (details : AuditDetails) (freshId : String) (now : Nat) :
    MPCSecurityGovernance :=
  let logs := g.auditLogs ++ [⟨freshId, now, eventType, details⟩]
  { g with auditLogs :=
      if logs.length > 1000 then logs.drop (logs.length - 1000) else logs }

/-- MPCSecurityGovernance.defineSecurityPolicy (lines 18-28): upsert the
policy under its id with fresh create/update stamps; no audit append. -/
def defineSecurityPolicy (g : MPCSecurityGovernance) (policyId : String)
    (policy : SecurityPolicy) (now : Nat) : MPCSecurityGovernance :=
  let stamped := { policy with createdAt := now, updatedAt := now }
  { g with securityPolicies := mapSet g.securityPolicies policyId stamped }

/-- The per-policy body of the validateOperation loop (lines 34-67): start
from `passed = true, violations = []`; each check appends its violations (and
clears `passed`) in source order: authentication, data sensitivity,
encryption. -/
def validatePolicy (policyId : String) (policy : SecurityPolicy)
    (operation : Operation) (parties : List Party)
    (dataSensitivity : String) : ValidationResult :=
  let authViolations :=
    if policy.requirePartyAuthentication then
      (parties.filter fun party => !party.authenticated).map
        fun party => "Party " ++ party.id ++ " is not authenticated"
    else []
  let sensitivityViolations :=
    match policy.dataSensitivityLevels with
    | some levels =>
      if levels.contains dataSensitivity then
        if parties.length < policy.minimumParties then
          ["Insufficient parties for " ++ dataSensitivity ++ " data sensitivity"]
        else []
      else []
    | none => []
  let encryptionViolations :=
    if policy.requireEncryption && !operation.encrypted then
      ["Operation not encrypted"]
    else []
  let violations := authViolations ++ sensitivityViolations ++ encryptionViolations
  { policyId := policyId
    policyName := policy.name
    passed := violations.isEmpty
    violations := violations }

/-- MPCSecurityGovernance.validateOperation (lines 31-79): evaluate every
currently-defined policy (Map iteration order) with no early exit, then
append one operation_validation audit entry carrying the full result list. -/
def validateOperation (g : MPCSecurityGovernance) (operation : Operation)
    (parties : List Party) (dataSensitivity : String)
    (freshId : String) (now : Nat) :
    List ValidationResult × MPCSecurityGovernance :=
  let validationResults := g.securityPolicies.map fun kv =>
    validatePolicy kv.1 kv.2 operation parties dataSensitivity
  (validationResults,
   logAuditEvent g "operation_validation"
     (.operationValidation operation (parties.map fun p => p.id)
       dataSensitivity validationResults)
     freshId now)

/-- MPCSecurityGovernance.updatePolicy (lines 229-242): throw when the id is
unknown; otherwise merge the caller's updates (an opaque object, modelled as
a function) with a fresh updatedAt stamp and append a policy_update audit
entry. -/
def updatePolicy (g : MPCSecurityGovernance) (policyId : String)
    (updates : SecurityPolicy → SecurityPolicy) (freshId : String)
    (now : Nat) : Except String MPCSecurityGovernance :=
  match g.securityPolicies.find? fun kv => kv.1 = policyId with
  | none => .error ("Policy " ++ policyId ++ " not found")
  | some kv =>
    let merged := { updates kv.2 with updatedAt := now }
    let g2 := { g with securityPolicies := mapSet g.securityPolicies policyId merged }
    .ok (logAuditEvent g2 "policy_update" (.policyUpdate policyId) freshId now)

/-- MPCSecurityGovernance.removePolicy (lines 245-251): delete by id;
append a policy_remove audit entry only when something was deleted. -/
def removePolicy (g : MPCSecurityGovernance) (policyId : String)
    (freshId : String) (now : Nat) : Bool × MPCSecurityGovernance :=
  if g.securityPolicies.any fun kv => kv.1 = policyId then
    let g2 := { g with securityPolicies :=
      g.securityPolicies.filter fun kv => !(kv.1 = policyId : Bool) }
    (true, logAuditEvent g2 "policy_remove" (.policyRemove policyId) freshId now)
  else
    (false, g)

/-- The fixed complianceStandards list of the constructor (lines 8-14). -/
def complianceStandards : List String :=
  ["GDPR", "HIPAA", "SOX", "ISO 27001", "NIST CSF"]

/-- The canned findings of checkCompliance's switch (lines 171-181). -/
def complianceFindings (standard : String) : List String :=
  if standard = "GDPR" then
    ["Data minimization principle applied",
     "Purpose limitation ensured through MPC protocols"]
  else if standard = "HIPAA" then
    ["Data encrypted in transit and at rest",
     "Access controls implemented"]
  else []

/-- MPCSecurityGovernance.checkCompliance (lines 156-186): throw for an
unrecognized standard; otherwise build the canned report and append a
compliance_check audit entry. -/
def checkCompliance (g : MPCSecurityGovernance) (standard : String)
    (freshId : String) (now : Nat) :
    Except String (List String × MPCSecurityGovernance) :=
  if complianceStandards.contains standard then
    let findings := complianceFindings standard
    .ok (findings,
      logAuditEvent g "compliance_check"
        (.complianceCheck standard findings) freshId now)
  else
    .error ("Unsupported compliance standard: " ++ standard)

/-! Server state and autonomous task queue (MPCServer.js). -/

/-- A task queue entry (MPCServer.addTaskToQueue, lines 31-38):
`{id, task, inputData, priority, timestamp, status}`.  `inputData` is opaque
to the queue logic and modelled as a string. -/
structure TaskEntry where
  id : String
  task : String
  inputData : String
  priority : Int
  timestamp : Nat
  status : String
deriving DecidableEq

/-- The insertion scan of addTaskToQueue (lines 40-52): walk the queue and
splice the new entry in front of the first existing entry whose priority is
strictly lower; push to the back when no such entry exists. -/
def insertTaskEntry (taskQueue : List TaskEntry) (taskEntry : TaskEntry) :
    List TaskEntry :=
  match taskQueue with
  | [] => [taskEntry]
  | q :: rest =>
    if q.priority < taskEntry.priority then
      taskEntry :: q :: rest
    else
      q :: insertTaskEntry rest taskEntry

/-- Mutable state of an MPCServer (constructor, lines 6-15), restricted to
the fields the verified operations read or write. -/
structure MPCServer where
  name : String
  description : String
  parties : List Party
  computationId : Option String
  results : Option ℚ
  taskQueue : List TaskEntry
  autonomousMode : Bool
deriving DecidableEq

/-- MPCServer.addTaskToQueue (lines 30-62), state part: build the entry with
a fresh id and the current clock and insert it by priority.  Returns the new
entry's id with the updated server. -/
def addTaskToQueue (server : MPCServer) (task inputData : String)
    (priority : Int) (freshId : String) (now : Nat) : String × MPCServer :=
  let taskEntry : TaskEntry :=
    { id := freshId, task := task, inputData := inputData,
      priority := priority, timestamp := now, status := "queued" }
  (freshId, { server with taskQueue := insertTaskEntry server.taskQueue taskEntry })

/-- The post-session server state: executeSecureComputation always runs
initializeComputation (fresh computationId, cleared results) and
aggregateResults stores the mean on success. -/
def applySession (server : MPCServer) (computationId : String)
    (result : ComputationResult) : MPCServer :=
  { server with
    computationId := some computationId
    results :=
      match result with
      | .success _ _ r _ => some r
      | .error _ _ => none }

/-- The drain loop body of MPCServer.processTaskQueue (lines 74-103): while
autonomous mode is on and the queue is non-empty, shift the head, run it
through executeSecureComputation, and mark the entry 'completed' with the
session result (the session never throws past its catch, so the 'failed'
branch at lines 89-99 is unreachable).  The roster and the autonomous flag
are loop-invariant in this model, so the loop recurses structurally on the
queue.  Returns the processed entries paired with their results, in
processing order.  Fresh computation ids are drawn from the supply by
position. -/
def drainQueue (autonomousMode : Bool) (parties : List Party)
    (sendShareToParty : Party → Except String Unit)
    (getResultFromParty : Party → Except String ℚ)
    (computationIds : Nat → String) (i : Nat) :
    List TaskEntry → List (TaskEntry × ComputationResult)
  | [] => []
  | taskEntry :: rest =>
    if autonomousMode then
      let result := executeSecureComputation parties sendShareToParty
        getResultFromParty taskEntry.task (computationIds i)
      ({ taskEntry with status := "completed" }, result) ::
        drainQueue autonomousMode parties sendShareToParty getResultFromParty
          computationIds (i + 1) rest
    else []

/-- MPCServer.processTaskQueue (lines 65-108): the guard at line 66 returns
immediately when autonomous mode is off or the queue is empty (the
isProcessing re-entrancy flag is concurrency-internal and not modelled);
otherwise drain the queue to empty. -/
def processTaskQueue (server : MPCServer)
    (sendShareToParty : Party → Except String Unit)
    (getResultFromParty : Party → Except String ℚ)
    (computationIds : Nat → String) :
    List (TaskEntry × ComputationResult) × MPCServer :=
  if !server.autonomousMode || server.taskQueue.length = 0 then
    ([], server)
  else
    (drainQueue server.autonomousMode server.parties sendShareToParty
       getResultFromParty computationIds 0 server.taskQueue,
     { server with taskQueue := [] })

/-! Orchestration manager (MPCManager.js). -/

/-- State of an MPCManager: the server collection and its governance
instance. -/
structure MPCManager where
  servers : List MPCServer
  securityGovernance : MPCSecurityGovernance
deriving DecidableEq

/-- A policy object as passed (without stamps) to defineSecurityPolicy; the
stamps are overwritten there, so a zero placeholder is used. -/
def mkPolicy (name description : String) (requireAuth : Bool)
    (minParties : Nat) (requireEnc : Bool)
    (levels : Option (List String)) : SecurityPolicy :=
  { name := name, description := description,
    requirePartyAuthentication := requireAuth,
    minimumParties := minParties, requireEncryption := requireEnc,
    dataSensitivityLevels := levels, createdAt := 0, updatedAt := 0 }

/-- MPCManager.initializeDefaultPolicies (lines 14-43): install the
high-sensitivity, medium-sensitivity and default policies, in that order. -/
def initializeDefaultPolicies (g : MPCSecurityGovernance) (now : Nat) :
    MPCSecurityGovernance :=
  let g1 := defineSecurityPolicy g "high-sensitivity"
    (mkPolicy "High Sensitivity Data Policy"
      "Security requirements for high sensitivity data operations"
      true 3 false (some ["high", "critical"])) now
  let g2 := defineSecurityPolicy g1 "medium-sensitivity"
    (mkPolicy "Medium Sensitivity Data Policy"
      "Security requirements for medium sensitivity data operations"
      true 2 false (some ["medium"])) now
  defineSecurityPolicy g2 "default"
    (mkPolicy "Default Security Policy"
      "Default security requirements for all MPC operations"
      true 2 false none) now

/-- The error message thrown at MPCManager.js lines 97 and 135:
`Security validation failed: ...` with the failing policies' violations
joined by ', ' within a policy and '; ' across policies. -/
def securityValidationError (failedValidations : List ValidationResult) :
    String :=
  "Security validation failed: " ++
    String.intercalate "; "
      (failedValidations.map fun v => String.intercalate ", " v.violations)

/-- One record of the list built by MPCManager.executeTask: either
`{server, result, status: 'success'}` or `{server, status: 'error', error}`. -/
inductive ServerRecord where
  | success (server : String) (result : ComputationResult)
  | error (server : String) (errMsg : String)
deriving DecidableEq

/-- MPCManager.executeTaskOnServer (lines 119-139): find the server by name
(throw when absent), validate against the governance policies with the mock
encrypted operation, throw when any policy failed, otherwise run the
computation session on that server. -/
def executeTaskOnServer (m : MPCManager) (serverName task : String)
    (sendShareToParty : Party → Except String Unit)
    (getResultFromParty : Party → Except String ℚ)
    (dataSensitivity : String) (auditId : String) (now : Nat)
    (computationId : String) : Except String ComputationResult × MPCManager :=
  match m.servers.find? fun s => s.name = serverName with
  | none => (.error ("MPC Server '" ++ serverName ++ "' not found"), m)
  | some server =>
    let validated := validateOperation m.securityGovernance
      { encrypted := true } server.parties dataSensitivity auditId now
    let m2 := { m with securityGovernance := validated.2 }
    let failedValidations := validated.1.filter fun v => !v.passed
    if failedValidations.length > 0 then
      (.error (securityValidationError failedValidations), m2)
    else
      let result := executeSecureComputation server.parties sendShareToParty
        getResultFromParty task computationId
      let servers2 := m2.servers.map fun s =>
        if s.name = serverName then applySession s computationId result else s
      (.ok result, { m2 with servers := servers2 })

/-- The per-server try/catch body of MPCManager.executeTask (lines 85-112):
validate (this appends an audit entry), catch a validation failure into an
error record, otherwise run the session and record its result object with
record status 'success'. -/
def executeTaskStep (g : MPCSecurityGovernance) (server : MPCServer)
    (task : String) (sendShareToParty : Party → Except String Unit)
    (getResultFromParty : Party → Except String ℚ)
    (dataSensitivity : String) (auditId : String) (now : Nat)
    (computationId : String) :
    ServerRecord × MPCServer × MPCSecurityGovernance :=
  let validated := validateOperation g { encrypted := true } server.parties
    dataSensitivity auditId now
  let failedValidations := validated.1.filter fun v => !v.passed
  if failedValidations.length > 0 then
    (.error server.name (securityValidationError failedValidations),
     server, validated.2)
  else
    let result := executeSecureComputation server.parties sendShareToParty
      getResultFromParty task computationId
    (.success server.name result,
     applySession server computationId result, validated.2)

/-- The server loop of MPCManager.executeTask: fold executeTaskStep over the
servers in order, threading governance state; a failure on one server never
stops the loop.  Audit ids and computation ids are drawn from the supplies
by server position. -/
def executeTaskGo (g : MPCSecurityGovernance) (servers : List MPCServer)
    (task : String) (sendShareToParty : Party → Except String Unit)
    (getResultFromParty : Party → Except String ℚ)
    (dataSensitivity : String) (auditIds : Nat → String)
    (computationIds : Nat → String) (now : Nat) (i : Nat) :
    List ServerRecord × List MPCServer × MPCSecurityGovernance :=
  match servers with
  | [] => ([], [], g)
  | server :: rest =>
    let step := executeTaskStep g server task sendShareToParty
      getResultFromParty dataSensitivity (auditIds i) now (computationIds i)
    let tail := executeTaskGo step.2.2 rest task sendShareToParty
      getResultFromParty dataSensitivity auditIds computationIds now (i + 1)
    (step.1 :: tail.1, step.2.1 :: tail.2.1, tail.2.2)

/-- MPCManager.executeTask (lines 82-116): run the validated flow against
every registered server, collecting one record per server. -/
def executeTask (m : MPCManager) (task : String)
    (sendShareToParty : Party → Except String Unit)
    (getResultFromParty : Party → Except String ℚ)
    (dataSensitivity : String) (auditIds : Nat → String)
    (computationIds : Nat → String) (now : Nat) :
    List ServerRecord × MPCManager :=
  let runAll := executeTaskGo m.securityGovernance m.servers task
    sendShareToParty getResultFromParty dataSensitivity auditIds
    computationIds now 0
  (runAll.1, { m with servers := runAll.2.1, securityGovernance := runAll.2.2 })

/-! Derived views and concrete fixtures used by the verification. -/

/-- The collection-stage tail of the session with the catch clause applied:
what executeSecureComputation returns once the distribution threshold check
has passed. -/
def collectionPhase (parties : List Party)
    (getResultFromParty : Party → Except String ℚ)
    (task computationId : String) : ComputationResult :=
  match collectionPhaseE parties getResultFromParty task computationId with
  | .ok r => r
  | .error e => .error task e

/-- The failed-delivery list of executeSecureComputation line 296. -/
def failedDistributions (parties : List Party)
    (sendShareToParty : Party → Except String Unit) : List DistributionResult :=
  (distributeShares parties sendShareToParty).filter fun r => r.isError

/-- The failed-collection list of executeSecureComputation line 307. -/
def failedCollections (parties : List Party)
    (getResultFromParty : Party → Except String ℚ) : List PartyResult :=
  (collectResults parties getResultFromParty).filter fun r => r.isError

/-- The queue ordering invariant: priorities are non-increasing along the
queue, and among equal priorities the enqueue clock is non-decreasing
(earlier-enqueued entries first). -/
def QueueOrdered (q : List TaskEntry) : Prop :=
  q.Pairwise fun a b =>
    b.priority < a.priority ∨ (a.priority = b.priority ∧ a.timestamp ≤ b.timestamp)

/-- Governance instance with no policies and an empty audit log
(the constructor state). -/
def emptyGovernance : MPCSecurityGovernance :=
  { securityPolicies := [], auditLogs := [] }

/-- The governance state of a freshly constructed MPCManager: the three
default policies, installed at clock 0. -/
def defaultGovernance : MPCSecurityGovernance :=
  initializeDefaultPolicies emptyGovernance 0

/-- Authenticated test party 1 (MPCManager.test.js fixture). -/
def party1 : Party := { id := "party1", name := "Party 1", authenticated := true }

/-- Authenticated test party 2. -/
def party2 : Party := { id := "party2", name := "Party 2", authenticated := true }

/-- Authenticated test party 3. -/
def party3 : Party := { id := "party3", name := "Party 3", authenticated := true }

/-- An unauthenticated party. -/
def party4noAuth : Party :=
  { id := "party4", name := "Party 4", authenticated := false }

/-- A fresh server with the given name and roster. -/
def mkServer (name : String) (parties : List Party) : MPCServer :=
  { name := name, description := "demo server", parties := parties,
    computationId := none, results := none, taskQueue := [],
    autonomousMode := false }

/-- Demo server with three authenticated parties. -/
def threePartyServer : MPCServer := mkServer "server-3" [party1, party2, party3]

/-- Demo server with two authenticated parties. -/
def twoPartyServer : MPCServer := mkServer "server-2" [party1, party2]

/-- Demo server with an empty roster. -/
def zeroPartyServer : MPCServer := mkServer "server-0" []

/-- Manager owning the three-party server, under the default policy set. -/
def demoManager : MPCManager :=
  { servers := [threePartyServer], securityGovernance := defaultGovernance }

/-- Manager owning the two-party server. -/
def managerTwo : MPCManager :=
  { servers := [twoPartyServer], securityGovernance := defaultGovernance }

/-- Manager owning the zero-party server. -/
def managerZero : MPCManager :=
  { servers := [zeroPartyServer], securityGovernance := defaultGovernance }

/-- Transport oracle on which every share delivery succeeds. -/
def okSend : Party → Except String Unit := fun _ => .ok ()

/-- Transport oracle on which every result retrieval yields 10. -/
def okGet : Party → Except String ℚ := fun _ => .ok 10

/-- Computation-id supply for queue draining. -/
def cidSupply : Nat → String := fun n => "cid-" ++ toString n

/-- Transport oracle on which delivery to party1 fails and every other
delivery succeeds. -/
def failParty1Send : Party → Except String Unit := fun p =>
  if p.id = "party1" then .error "party offline" else .ok ()

/-- The queue of the autonomous demo server after enqueueing tasks with
priorities 1, 5, 3 in that order (the spec's end-to-end queue scenario). -/
def queueServer3 : MPCServer :=
  (addTaskToQueue (addTaskToQueue (addTaskToQueue
    { mkServer "queue-server" [party1] with autonomousMode := true }
    "low-priority-task" "d1" 1 "t1" 1).2
    "high-priority-task" "d2" 5 "t2" 2).2
    "medium-priority-task" "d3" 3 "t3" 3).2

/-- The governance state after the validation audit append of the blocked
high-sensitivity call against the two-party server. -/
def governanceAfterHighValidation : MPCSecurityGovernance :=
  (validateOperation defaultGovernance { encrypted := true } [party1, party2]
    "high" "audit-1" 3).2

instance (q : List TaskEntry) : Decidable (QueueOrdered q) :=
  inferInstanceAs (Decidable (List.Pairwise _ q))

/-! Helper lemmas. -/

/-- The JS threshold test `count > parties.length / 2` (real division) is the
strict-majority test `parties.length < 2 * count`. -/
theorem half_lt_cast_iff (n f : ℕ) : ((n : ℚ) / 2 < (f : ℚ)) ↔ n < 2 * f := by
  rw [div_lt_iff₀ (by norm_num : (0:ℚ) < 2)]
  constructor
  · intro h
    have h2 : n < f * 2 := by exact_mod_cast h
    omega
  · intro h
    have h2 : n < f * 2 := by omega
    exact_mod_cast h2

/-- Case normal form of the session try-block: the three failure exits and
the success exit, keyed by the two strict-majority checks and the
empty-results check. -/
theorem executeSecureComputationE_eq (parties : List Party)
    (send : Party → Except String Unit) (getr : Party → Except String ℚ)
    (task cid : String) :
    executeSecureComputationE parties send getr task cid =
      if parties.length < 2 * (failedDistributions parties send).length then
        .error "Too many parties failed during share distribution"
      else if parties.length < 2 * (failedCollections parties getr).length then
        .error "Too many parties failed during result collection"
      else if (validResults (collectResults parties getr)).length = 0 then
        .error "No valid results received from parties"
      else
        .ok (.success cid task
          ((validResults (collectResults parties getr)).sum /
            ((validResults (collectResults parties getr)).length : ℚ))
          (collectResults parties getr)) := by
  simp only [executeSecureComputationE, collectionPhaseE, aggregateResults,
    failedDistributions, failedCollections]
  by_cases h1 : (((parties.length : ℚ)) / 2) <
      (((distributeShares parties send).filter fun r => r.isError).length : ℚ)
  · rw [if_pos h1, if_pos ((half_lt_cast_iff _ _).mp h1)]
  · rw [if_neg h1, if_neg (fun hc => h1 ((half_lt_cast_iff _ _).mpr hc))]
    by_cases h2 : (((parties.length : ℚ)) / 2) <
        (((collectResults parties getr).filter fun r => r.isError).length : ℚ)
    · rw [if_pos h2, if_pos ((half_lt_cast_iff _ _).mp h2)]
    · rw [if_neg h2, if_neg (fun hc => h2 ((half_lt_cast_iff _ _).mpr hc))]
      by_cases h0 : (validResults (collectResults parties getr)).length = 0
      · rw [if_pos h0, if_pos h0]
      · rw [if_neg h0, if_neg h0]

/-- Case normal form of the caught session entry point at the distribution
threshold. -/
theorem executeSecureComputation_eq (parties : List Party)
    (send : Party → Except String Unit) (getr : Party → Except String ℚ)
    (task cid : String) :
    executeSecureComputation parties send getr task cid =
      if parties.length < 2 * (failedDistributions parties send).length then
        .error task "Too many parties failed during share distribution"
      else collectionPhase parties getr task cid := by
  simp only [executeSecureComputation, executeSecureComputationE, collectionPhase,
    failedDistributions]
  by_cases h : (((parties.length : ℚ)) / 2) <
      (((distributeShares parties send).filter fun r => r.isError).length : ℚ)
  · rw [if_pos h, if_pos ((half_lt_cast_iff _ _).mp h)]
  · rw [if_neg h, if_neg (fun hc => h ((half_lt_cast_iff _ _).mpr hc))]

/-- Case normal form of the caught collection-and-aggregation tail. -/
theorem collectionPhase_eq (parties : List Party)
    (getr : Party → Except String ℚ) (task cid : String) :
    collectionPhase parties getr task cid =
      if parties.length < 2 * (failedCollections parties getr).length then
        .error task "Too many parties failed during result collection"
      else if (validResults (collectResults parties getr)).length = 0 then
        .error task "No valid results received from parties"
      else
        .success cid task
          ((validResults (collectResults parties getr)).sum /
            ((validResults (collectResults parties getr)).length : ℚ))
          (collectResults parties getr) := by
  simp only [collectionPhase, collectionPhaseE, aggregateResults, failedCollections]
  by_cases h : (((parties.length : ℚ)) / 2) <
      (((collectResults parties getr).filter fun r => r.isError).length : ℚ)
  · rw [if_pos h, if_pos ((half_lt_cast_iff _ _).mp h)]
  · rw [if_neg h, if_neg (fun hc => h ((half_lt_cast_iff _ _).mpr hc))]
    by_cases h0 : (validResults (collectResults parties getr)).length = 0
    · rw [if_pos h0, if_pos h0]
    · rw [if_neg h0, if_neg h0]

/-- The empty-roster session fails at aggregation with the defensive
double-check message. -/
theorem zeroPartySession (task cid : String) :
    executeSecureComputation [] okSend okGet task cid =
      .error task "No valid results received from parties" := by
  rw [executeSecureComputation_eq, if_neg (by decide), collectionPhase_eq,
    if_neg (by decide), if_pos (by decide)]

/-- The insertion scan splits the queue at the first entry of strictly lower
priority. -/
theorem insertTaskEntry_split (q : List TaskEntry) (e : TaskEntry) :
    insertTaskEntry q e =
      q.takeWhile (fun x => !decide (x.priority < e.priority)) ++
        e :: q.dropWhile (fun x => !decide (x.priority < e.priority)) := by
  induction q with
  | nil => rfl
  | cons a rest ih =>
    by_cases h : a.priority < e.priority
    · simp [insertTaskEntry, List.takeWhile_cons, List.dropWhile_cons, h]
    · simp [insertTaskEntry, List.takeWhile_cons, List.dropWhile_cons, h, ih]

/-- Insertion permutes the entry onto the queue. -/
theorem insertTaskEntry_perm (q : List TaskEntry) (e : TaskEntry) :
    (insertTaskEntry q e).Perm (e :: q) := by
  induction q with
  | nil => exact List.Perm.refl _
  | cons a rest ih =>
    by_cases h : a.priority < e.priority
    · simp only [insertTaskEntry, if_pos h]
      exact List.Perm.refl _
    · simp only [insertTaskEntry, if_neg h]
      exact (ih.cons a).trans (List.Perm.swap e a rest)

/-- Membership in an insertion result. -/
theorem mem_insertTaskEntry {x : TaskEntry} {q : List TaskEntry} {e : TaskEntry} :
    x ∈ insertTaskEntry q e ↔ x = e ∨ x ∈ q := by
  rw [(insertTaskEntry_perm q e).mem_iff, List.mem_cons]

/-- The insertion scan preserves the priority/FIFO queue invariant when the
new entry carries the latest clock. -/
theorem insertTaskEntry_ordered (q : List TaskEntry) (e : TaskEntry)
    (hq : QueueOrdered q) (ht : ∀ x ∈ q, x.timestamp ≤ e.timestamp) :
    QueueOrdered (insertTaskEntry q e) := by
  induction q with
  | nil => simp [insertTaskEntry, QueueOrdered]
  | cons a rest ih =>
    rw [QueueOrdered, List.pairwise_cons] at hq
    obtain ⟨ha, hrest⟩ := hq
    by_cases h : a.priority < e.priority
    · simp only [insertTaskEntry, if_pos h]
      rw [QueueOrdered, List.pairwise_cons]
      refine ⟨fun b hb => ?_, ?_⟩
      · rcases List.mem_cons.mp hb with hb | hb
        · subst hb
          exact Or.inl h
        · rcases ha b hb with hlt | ⟨heq, _⟩
          · exact Or.inl (hlt.trans h)
          · exact Or.inl (heq ▸ h)
      · rw [QueueOrdered] at *
        exact List.pairwise_cons.mpr ⟨ha, hrest⟩
    · simp only [insertTaskEntry, if_neg h]
      rw [QueueOrdered, List.pairwise_cons]
      refine ⟨fun b hb => ?_, ?_⟩
      · rcases mem_insertTaskEntry.mp hb with hb | hb
        · subst hb
          rcases lt_or_eq_of_le (not_lt.mp h) with hlt | heq
          · exact Or.inl hlt
          · exact Or.inr ⟨heq.symm, ht a (List.mem_cons_self a rest)⟩
        · exact ha b hb
      · exact ih hrest fun x hx => ht x (List.mem_cons_of_mem a hx)

/-- In an invariant-satisfying queue, a strictly higher-priority entry sits
strictly closer to the front. -/
theorem queueOrdered_get_lt (q : List TaskEntry) (h : QueueOrdered q)
    (i j : Fin q.length)
    (hp : (q.get j).priority < (q.get i).priority) : i < j := by
  by_contra hn
  push_neg at hn
  rcases lt_or_eq_of_le hn with hlt | heq
  · rcases List.pairwise_iff_get.mp h j i hlt with hcase | ⟨heq2, _⟩
    · exact absurd (hp.trans hcase) (lt_irrefl _)
    · rw [heq2] at hp
      exact absurd hp (lt_irrefl _)
  · rw [heq] at hp
    exact absurd hp (lt_irrefl _)

/-- The autonomous drain processes entries in queue order. -/
theorem drainQueue_order (parties : List Party)
    (send : Party → Except String Unit) (getr : Party → Except String ℚ)
    (cids : Nat → String) (i : Nat) (q : List TaskEntry) :
    (drainQueue true parties send getr cids i q).map (fun p => p.1.id) =
      q.map (fun e => e.id) := by
  induction q generalizing i with
  | nil => rfl
  | cons e rest ih => simp [drainQueue, ih]

/-- One audit append never leaves more than 1000 entries. -/
theorem logAuditEvent_length_le (g : MPCSecurityGovernance) (ev : String)
    (d : AuditDetails) (id : String) (t : Nat) :
    (logAuditEvent g ev d id t).auditLogs.length ≤ 1000 := by
  simp only [logAuditEvent]
  by_cases h : (g.auditLogs ++ [(⟨id, t, ev, d⟩ : AuditEntry)]).length > 1000
  · rw [if_pos h, List.length_drop]
    omega
  · rw [if_neg h]
    omega

/-- The retained audit entries are a suffix of the appended log: only the
oldest entries are evicted and their order is preserved. -/
theorem logAuditEvent_suffix (g : MPCSecurityGovernance) (ev : String)
    (d : AuditDetails) (id : String) (t : Nat) :
    (logAuditEvent g ev d id t).auditLogs <:+ g.auditLogs ++ [⟨id, t, ev, d⟩] := by
  simp only [logAuditEvent]
  by_cases h : (g.auditLogs ++ [(⟨id, t, ev, d⟩ : AuditEntry)]).length > 1000
  · rw [if_pos h]
    exact List.drop_suffix _ _
  · rw [if_neg h]

/-- Appending the 1001st entry evicts exactly the oldest entry. -/
theorem logAuditEvent_evicts (g : MPCSecurityGovernance) (ev : String)
    (d : AuditDetails) (id : String) (t : Nat)
    (h : g.auditLogs.length = 1000) :
    (logAuditEvent g ev d id t).auditLogs =
      g.auditLogs.drop 1 ++ [⟨id, t, ev, d⟩] := by
  simp only [logAuditEvent]
  rw [if_pos (by simp [h]), List.length_append, h]
  simp only [List.length_singleton]
  rw [show 1000 + 1 - 1000 = 1 by omega]
  exact List.drop_append_of_le_length (by omega)

/-! Claim theorems. -/

/-- Claim C1: whenever a computation session returns a success object (so it
reached the Aggregating stage and aggregation succeeded), its result is the
arithmetic mean of the numeric results of the successfully collected party
results, and the end-to-end run through executeOn on a server with 3
authenticated parties at sensitivity medium returns a success object with
the numeric result 10 (the mean of the three collected results). -/
theorem C1_aggregation_is_mean :
    (∀ (parties : List Party) (send : Party → Except String Unit)
        (getr : Party → Except String ℚ) (task cid cid2 task2 : String)
        (r : ℚ) (prs : List PartyResult),
      executeSecureComputation parties send getr task cid =
          .success cid2 task2 r prs →
      cid2 = cid ∧ task2 = task ∧ prs = collectResults parties getr ∧
        r = (validResults prs).sum / ((validResults prs).length : ℚ)) ∧
    (executeTaskOnServer demoManager "server-3" "addition" okSend okGet "medium"
        "audit-0" 7 "cid-0").1 =
      .ok (.success "cid-0" "addition" 10
        [.success "party1" 10, .success "party2" 10, .success "party3" 10]) := by
  constructor
  · intro parties send getr task cid cid2 task2 r prs h
    by_cases h1 : parties.length < 2 * (failedDistributions parties send).length
    · rw [executeSecureComputation_eq, if_pos h1] at h
      exact ComputationResult.noConfusion h
    · rw [executeSecureComputation_eq, if_neg h1, collectionPhase_eq] at h
      by_cases h2 : parties.length < 2 * (failedCollections parties getr).length
      · rw [if_pos h2] at h
        exact ComputationResult.noConfusion h
      · rw [if_neg h2] at h
        by_cases h3 : (validResults (collectResults parties getr)).length = 0
        · rw [if_pos h3] at h
          exact ComputationResult.noConfusion h
        · rw [if_neg h3] at h
          injection h with h_cid h_task h_res h_prs
          subst h_prs
          exact ⟨h_cid.symm, h_task.symm, rfl, h_res.symm⟩
  · have hm : (executeTaskOnServer demoManager "server-3" "addition" okSend okGet
        "medium" "audit-0" 7 "cid-0").1 =
        .ok (executeSecureComputation [party1, party2, party3] okSend okGet
          "addition" "cid-0") := rfl
    rw [hm]
    rw [executeSecureComputation_eq, if_neg (by decide), collectionPhase_eq,
      if_neg (by decide), if_neg (by decide)]
    have hprs : collectResults [party1, party2, party3] okGet =
        [.success "party1" 10, .success "party2" 10, .success "party3" 10] := rfl
    rw [hprs]
    have hv : validResults
        [PartyResult.success "party1" 10, .success "party2" 10, .success "party3" 10] =
        [10, 10, 10] := rfl
    rw [hv]
    norm_num

/-- Witness for C1 on a one-party session in which collection yields 10. -/
theorem C1_aggregation_is_mean_witness :
    "cid-w" = "cid-w" ∧ "task-w" = "task-w" ∧
    [PartyResult.success "party1" 10] = collectResults [party1] okGet ∧
    (10 : ℚ) = (validResults [PartyResult.success "party1" 10]).sum /
      ((validResults [PartyResult.success "party1" 10]).length : ℚ) := by
  have h : executeSecureComputation [party1] okSend okGet "task-w" "cid-w" =
      .success "cid-w" "task-w" 10 [PartyResult.success "party1" 10] := by
    rw [executeSecureComputation_eq, if_neg (by decide), collectionPhase_eq,
      if_neg (by decide), if_neg (by decide)]
    have hprs : collectResults [party1] okGet = [PartyResult.success "party1" 10] := rfl
    rw [hprs]
    have hv : validResults [PartyResult.success "party1" 10] = [10] := rfl
    rw [hv]
    norm_num
  exact C1_aggregation_is_mean.1 [party1] okSend okGet "task-w" "cid-w"
    "cid-w" "task-w" 10 [PartyResult.success "party1" 10] h

/-- Claim C2: the session aborts with the distribution-stage error exactly
when the failed deliveries are a strict majority of the N registered
parties; a strict-majority distribution failure is independent of the
collection oracle (collection is never reached); with N/2 or fewer failures
the session proceeds to the collection phase; and, once distribution
passed, the collection stage aborts with its own distinct error exactly
under the same strict-majority rule. -/
theorem C2_failure_threshold (parties : List Party)
    (send : Party → Except String Unit) (getr : Party → Except String ℚ)
    (task cid : String) :
    (executeSecureComputation parties send getr task cid =
        .error task "Too many parties failed during share distribution"
      ↔ parties.length < 2 * (failedDistributions parties send).length) ∧
    (parties.length < 2 * (failedDistributions parties send).length →
      ∀ getr2 : Party → Except String ℚ,
        executeSecureComputation parties send getr2 task cid =
          .error task "Too many parties failed during share distribution") ∧
    (2 * (failedDistributions parties send).length ≤ parties.length →
      executeSecureComputation parties send getr task cid =
        collectionPhase parties getr task cid) ∧
    (2 * (failedDistributions parties send).length ≤ parties.length →
      (executeSecureComputation parties send getr task cid =
          .error task "Too many parties failed during result collection"
        ↔ parties.length < 2 * (failedCollections parties getr).length)) := by
  refine ⟨⟨fun h => ?_, fun h => ?_⟩, fun h getr2 => ?_, fun h => ?_, fun h => ?_⟩
  · by_contra hn
    push_neg at hn
    rw [executeSecureComputation_eq, if_neg (by omega), collectionPhase_eq] at h
    by_cases hc1 : parties.length < 2 * (failedCollections parties getr).length
    · rw [if_pos hc1] at h
      injection h with ht hm
      exact absurd hm (by decide)
    · rw [if_neg hc1] at h
      by_cases hc2 : (validResults (collectResults parties getr)).length = 0
      · rw [if_pos hc2] at h
        injection h with ht hm
        exact absurd hm (by decide)
      · rw [if_neg hc2] at h
        exact ComputationResult.noConfusion h
  · rw [executeSecureComputation_eq, if_pos h]
  · rw [executeSecureComputation_eq, if_pos h]
  · rw [executeSecureComputation_eq, if_neg (by omega)]
  · rw [executeSecureComputation_eq, if_neg (by omega), collectionPhase_eq]
    constructor
    · intro hc
      by_contra hn
      push_neg at hn
      rw [if_neg (by omega)] at hc
      by_cases h0 : (validResults (collectResults parties getr)).length = 0
      · rw [if_pos h0] at hc
        injection hc with ht hm
        exact absurd hm (by decide)
      · rw [if_neg h0] at hc
        exact ComputationResult.noConfusion hc
    · intro hc
      rw [if_pos hc]

/-- Witness for C2: with 2 parties and exactly 1 failed delivery (exactly
N/2, N even) the session proceeds to the collection phase. -/
theorem C2_failure_threshold_witness :
    executeSecureComputation [party1, party2] failParty1Send okGet
        "task-w" "cid-w" =
      collectionPhase [party1, party2] okGet "task-w" "cid-w" :=
  (C2_failure_threshold [party1, party2] failParty1Send okGet
    "task-w" "cid-w").2.2.1 (by decide)

/-- Claim C3: for every roster and every behaviour of the delivery and
collection oracles, executeSecureComputation returns a structured result
object: either the success object carrying the computation id and task, or
the error object carrying the task and exactly the failure message thrown
inside the session; no exception escapes. -/
theorem C3_structured_result (parties : List Party)
    (send : Party → Except String Unit) (getr : Party → Except String ℚ)
    (task cid : String) :
    (∃ r prs, executeSecureComputation parties send getr task cid =
        .success cid task r prs) ∨
    (∃ msg, executeSecureComputation parties send getr task cid =
        .error task msg ∧
      executeSecureComputationE parties send getr task cid = .error msg) := by
  unfold executeSecureComputation
  rw [executeSecureComputationE_eq]
  split_ifs with h1 h2 h3
  · exact Or.inr ⟨_, rfl, rfl⟩
  · exact Or.inr ⟨_, rfl, rfl⟩
  · exact Or.inr ⟨_, rfl, rfl⟩
  · exact Or.inl ⟨_, _, rfl⟩

/-- Claim C4: a new entry is inserted exactly in front of the first existing
entry of strictly lower priority (so never in front of an equal-priority
entry); the insertion preserves the priority-descending/FIFO queue
invariant; in an invariant-satisfying queue any strictly higher-priority
entry is dequeued strictly earlier; the autonomous drain dequeues in queue
order; and enqueueing priorities [1, 5, 3] drains as [5, 3, 1]. -/
theorem C4_queue_priority_order :
    (∀ (q : List TaskEntry) (e : TaskEntry),
      insertTaskEntry q e =
        q.takeWhile (fun x => !decide (x.priority < e.priority)) ++
          e :: q.dropWhile (fun x => !decide (x.priority < e.priority))) ∧
    (∀ (q : List TaskEntry) (e : TaskEntry),
      QueueOrdered q → (∀ x ∈ q, x.timestamp ≤ e.timestamp) →
        QueueOrdered (insertTaskEntry q e)) ∧
    (∀ (q : List TaskEntry), QueueOrdered q → ∀ i j : Fin q.length,
      (q.get j).priority < (q.get i).priority → i < j) ∧
    (∀ (parties : List Party) (send : Party → Except String Unit)
        (getr : Party → Except String ℚ) (cids : Nat → String) (i : Nat)
        (q : List TaskEntry),
      (drainQueue true parties send getr cids i q).map (fun p => p.1.id) =
        q.map (fun e => e.id)) ∧
    ((processTaskQueue queueServer3 okSend okGet cidSupply).1.map
        (fun p => p.1.task) =
      ["high-priority-task", "medium-priority-task", "low-priority-task"]) :=
  ⟨insertTaskEntry_split, insertTaskEntry_ordered, queueOrdered_get_lt,
   drainQueue_order, by decide⟩

/-- Witness for C4: inserting a later-enqueued priority-3 entry into an
ordered one-entry priority-5 queue keeps the queue invariant. -/
theorem C4_queue_priority_order_witness :
    QueueOrdered (insertTaskEntry
      [⟨"t1", "a", "d1", 5, 1, "queued"⟩]
      ⟨"t2", "b", "d2", 3, 2, "queued"⟩) :=
  C4_queue_priority_order.2.1
    [⟨"t1", "a", "d1", 5, 1, "queued"⟩]
    ⟨"t2", "b", "d2", 3, 2, "queued"⟩
    (by decide) (by decide)

/-- Claim C5: the audit log never exceeds 1000 entries: one append is
bounded by 1000, keeps a suffix of the appended log (insertion order
preserved, oldest evicted), and appending to a full log of 1000 drops
exactly the oldest entry; every governance operation (policy definition,
which appends nothing, validation, policy update, policy removal,
compliance check) leaves the log at 1000 entries or fewer. -/
theorem C5_audit_log_bounded :
    (∀ (g : MPCSecurityGovernance) (ev : String) (d : AuditDetails)
        (id : String) (t : Nat),
      (logAuditEvent g ev d id t).auditLogs.length ≤ 1000 ∧
      (logAuditEvent g ev d id t).auditLogs <:+
        g.auditLogs ++ [⟨id, t, ev, d⟩]) ∧
    (∀ (g : MPCSecurityGovernance) (ev : String) (d : AuditDetails)
        (id : String) (t : Nat), g.auditLogs.length = 1000 →
      (logAuditEvent g ev d id t).auditLogs =
        g.auditLogs.drop 1 ++ [⟨id, t, ev, d⟩]) ∧
    (∀ (g : MPCSecurityGovernance) (pid : String) (p : SecurityPolicy)
        (now : Nat), g.auditLogs.length ≤ 1000 →
      (defineSecurityPolicy g pid p now).auditLogs.length ≤ 1000) ∧
    (∀ (g : MPCSecurityGovernance) (op : Operation) (parties : List Party)
        (ds id : String) (now : Nat),
      (validateOperation g op parties ds id now).2.auditLogs.length ≤ 1000) ∧
    (∀ (g : MPCSecurityGovernance) (pid : String)
        (f : SecurityPolicy → SecurityPolicy) (id : String) (now : Nat)
        (g2 : MPCSecurityGovernance), updatePolicy g pid f id now = .ok g2 →
      g2.auditLogs.length ≤ 1000) ∧
    (∀ (g : MPCSecurityGovernance) (pid id : String) (now : Nat),
      ((removePolicy g pid id now).1 = true →
        (removePolicy g pid id now).2.auditLogs.length ≤ 1000) ∧
      ((removePolicy g pid id now).1 = false →
        (removePolicy g pid id now).2 = g)) ∧
    (∀ (g : MPCSecurityGovernance) (st id : String) (now : Nat)
        (r : List String) (g2 : MPCSecurityGovernance),
      checkCompliance g st id now = .ok (r, g2) →
      g2.auditLogs.length ≤ 1000) := by
  refine ⟨fun g ev d id t => ⟨logAuditEvent_length_le g ev d id t,
      logAuditEvent_suffix g ev d id t⟩,
    logAuditEvent_evicts, fun g pid p now h => ?_, fun g op parties ds id now => ?_,
    fun g pid f id now g2 h => ?_, fun g pid id now => ⟨fun h => ?_, fun h => ?_⟩,
    fun g st id now r g2 h => ?_⟩
  · exact h
  · exact logAuditEvent_length_le _ _ _ _ _
  · simp only [updatePolicy] at h
    cases hf : g.securityPolicies.find? fun kv => kv.1 = pid with
    | none => rw [hf] at h; exact Except.noConfusion h
    | some kv =>
      rw [hf] at h
      injection h with h2
      rw [← h2]
      exact logAuditEvent_length_le _ _ _ _ _
  · simp only [removePolicy] at h ⊢
    by_cases ha : g.securityPolicies.any fun kv => kv.1 = pid
    · rw [if_pos ha]
      exact logAuditEvent_length_le _ _ _ _ _
    · rw [if_neg ha] at h
      exact absurd h (by simp)
  · simp only [removePolicy] at h ⊢
    by_cases ha : g.securityPolicies.any fun kv => kv.1 = pid
    · rw [if_pos ha] at h
      exact absurd h (by simp)
    · rw [if_neg ha]
  · simp only [checkCompliance] at h
    by_cases hc : complianceStandards.contains st
    · rw [if_pos hc] at h
      injection h with h2
      rw [show g2 = (logAuditEvent g "compliance_check"
        (.complianceCheck st (complianceFindings st)) id now) from
        (congrArg Prod.snd h2.symm)]
      exact logAuditEvent_length_le _ _ _ _ _
    · rw [if_neg hc] at h
      exact Except.noConfusion h

/-- Witness for C5: defining a policy on a fresh governance instance leaves
the (empty) audit log within the bound. -/
theorem C5_audit_log_bounded_witness :
    (defineSecurityPolicy emptyGovernance "p0"
      (mkPolicy "P0" "demo policy" true 2 false none) 0).auditLogs.length ≤ 1000 :=
  C5_audit_log_bounded.2.2.1 emptyGovernance "p0"
    (mkPolicy "P0" "demo policy" true 2 false none) 0 (by decide)

/-- Claim C6: when no registered server carries the requested name,
executeOn returns the not-found failure to its caller with the manager
state (in particular the audit log) completely unchanged. -/
theorem C6_unknown_server_not_found (m : MPCManager) (serverName task : String)
    (send : Party → Except String Unit) (getr : Party → Except String ℚ)
    (ds auditId : String) (now : Nat) (cid : String)
    (h : ∀ s ∈ m.servers, s.name ≠ serverName) :
    executeTaskOnServer m serverName task send getr ds auditId now cid =
      (.error ("MPC Server '" ++ serverName ++ "' not found"), m) ∧
    (executeTaskOnServer m serverName task send getr ds auditId now
        cid).2.securityGovernance.auditLogs = m.securityGovernance.auditLogs := by
  have hf : (m.servers.find? fun s => s.name = serverName) = none :=
    List.find?_eq_none.mpr fun s hs => by simp [h s hs]
  constructor
  · simp only [executeTaskOnServer]
    rw [hf]
  · simp only [executeTaskOnServer]
    rw [hf]

/-- Witness for C6 against the demo manager and an absent server name. -/
theorem C6_unknown_server_not_found_witness :
    executeTaskOnServer demoManager "missing" "task-w" okSend okGet "medium"
        "audit-w" 0 "cid-w" =
      (.error ("MPC Server '" ++ "missing" ++ "' not found"), demoManager) ∧
    (executeTaskOnServer demoManager "missing" "task-w" okSend okGet "medium"
        "audit-w" 0 "cid-w").2.securityGovernance.auditLogs =
      demoManager.securityGovernance.auditLogs :=
  C6_unknown_server_not_found demoManager "missing" "task-w" okSend okGet
    "medium" "audit-w" 0 "cid-w" (by decide)

/-- Claim C7: validateOperation evaluates every currently-defined policy
with no early exit (the result list is exactly the per-policy map, one
result per policy); for a policy requiring authentication the violation
list starts with one entry per unauthenticated party; and any
unauthenticated party makes that policy's result fail with a violation
naming the party's id. -/
theorem C7_validation_unauthenticated (g : MPCSecurityGovernance)
    (op : Operation) (parties : List Party) (ds id : String) (now : Nat) :
    ((validateOperation g op parties ds id now).1 =
      g.securityPolicies.map fun kv => validatePolicy kv.1 kv.2 op parties ds) ∧
    ((validateOperation g op parties ds id now).1.length =
      g.securityPolicies.length) ∧
    (∀ (pid : String) (policy : SecurityPolicy),
      (pid, policy) ∈ g.securityPolicies →
      validatePolicy pid policy op parties ds ∈
        (validateOperation g op parties ds id now).1) ∧
    (∀ (pid : String) (policy : SecurityPolicy),
      policy.requirePartyAuthentication = true →
      ∃ rest, (validatePolicy pid policy op parties ds).violations =
        ((parties.filter fun p => !p.authenticated).map
          fun p => "Party " ++ p.id ++ " is not authenticated") ++ rest) ∧
    (∀ (pid : String) (policy : SecurityPolicy) (p : Party),
      policy.requirePartyAuthentication = true → p ∈ parties →
      p.authenticated = false →
      (validatePolicy pid policy op parties ds).passed = false ∧
      ("Party " ++ p.id ++ " is not authenticated") ∈
        (validatePolicy pid policy op parties ds).violations) := by
  refine ⟨rfl, by simp [validateOperation], fun pid policy hmem => ?_,
    fun pid policy hauth => ?_, fun pid policy p hauth hp hpauth => ?_⟩
  · exact List.mem_map_of_mem (fun kv => validatePolicy kv.1 kv.2 op parties ds) hmem
  · simp only [validatePolicy, hauth, if_true]
    exact ⟨_, List.append_assoc _ _ _⟩
  · have hpf : p ∈ parties.filter fun q => !q.authenticated :=
      List.mem_filter.mpr ⟨hp, by simp [hpauth]⟩
    have hmsg : ("Party " ++ p.id ++ " is not authenticated") ∈
        (parties.filter fun q => !q.authenticated).map
          fun q => "Party " ++ q.id ++ " is not authenticated" :=
      List.mem_map_of_mem _ hpf
    have hviol : ("Party " ++ p.id ++ " is not authenticated") ∈
        (validatePolicy pid policy op parties ds).violations := by
      simp only [validatePolicy, hauth, if_true]
      exact List.mem_append_left _ (List.mem_append_left _ hmsg)
    refine ⟨?_, hviol⟩
    have hne : (validatePolicy pid policy op parties ds).violations ≠ [] :=
      List.ne_nil_of_mem hviol
    have hfalse : (validatePolicy pid policy op parties ds).violations.isEmpty
        = false := by
      simp [List.isEmpty_iff, hne]
    exact hfalse

/-- Witness for C7: an unauthenticated party fails an
authentication-requiring policy with a violation naming it. -/
theorem C7_validation_unauthenticated_witness :
    (validatePolicy "default"
      (mkPolicy "Default Security Policy"
        "Default security requirements for all MPC operations" true 2 false none)
      { encrypted := true } [party4noAuth] "medium").passed = false ∧
    ("Party " ++ party4noAuth.id ++ " is not authenticated") ∈
      (validatePolicy "default"
        (mkPolicy "Default Security Policy"
          "Default security requirements for all MPC operations" true 2 false none)
        { encrypted := true } [party4noAuth] "medium").violations :=
  (C7_validation_unauthenticated defaultGovernance { encrypted := true }
    [party4noAuth] "medium" "audit-w" 0).2.2.2.2 "default"
    (mkPolicy "Default Security Policy"
      "Default security requirements for all MPC operations" true 2 false none)
    party4noAuth (by decide) (by decide) (by decide)

/-- Claim C8: with the default high-sensitivity policy (3-party minimum,
scoped to high/critical) defined, validating a 2-party roster at
sensitivity high yields a failed result for that policy, and executeOn is
blocked with the policy error before any session starts: for every
behaviour of the session oracles the call returns the same validation
error and only the validation audit append. -/
theorem C8_high_sensitivity_blocked :
    (∃ r ∈ (validateOperation defaultGovernance { encrypted := true }
        [party1, party2] "high" "audit-1" 3).1,
      r.policyId = "high-sensitivity" ∧ r.passed = false) ∧
    (∀ (send : Party → Except String Unit) (getr : Party → Except String ℚ)
        (cid : String),
      executeTaskOnServer managerTwo "server-2" "t" send getr "high" "audit-1"
          3 cid =
        (.error "Security validation failed: Insufficient parties for high data sensitivity",
         { managerTwo with securityGovernance := governanceAfterHighValidation })) := by
  constructor
  · decide
  · intro send getr cid
    rfl

/-- Claim C9 counterexample: against a 0-party server under the default
policy set, executeOn with the default sensitivity medium is blocked by
policy validation (the medium-sensitivity policy's 2-party minimum) and
raises the validation failure to its caller; it does not run the session
and does not return the structured aggregation-failure result the claim
describes. -/
theorem C9_counterexample :
    (executeTaskOnServer managerZero "server-0" "task-avg" okSend okGet
        "medium" "audit-1" 3 "cid-1").1 =
      .error "Security validation failed: Insufficient parties for medium data sensitivity" ∧
    "Security validation failed: Insufficient parties for medium data sensitivity" ≠
      "No valid results received from parties" :=
  ⟨rfl, by decide⟩

/-- Claim C9 as amended: with a sensitivity outside every policy's
sensitivity scope (for example low), executeOn against a 0-party server
passes validation and runs the session: distribution sees 0 parties and 0
failures, collection yields 0 results, and the aggregation failure
surfaces as a structured error result with the message
"No valid results received from parties" instead of an exception. -/
theorem C9_zero_parties_amended :
    failedDistributions [] okSend = [] ∧
    collectResults [] okGet = [] ∧
    executeSecureComputation [] okSend okGet "task-avg" "cid-1" =
      .error "task-avg" "No valid results received from parties" ∧
    (executeTaskOnServer managerZero "server-0" "task-avg" okSend okGet "low"
        "audit-1" 3 "cid-1").1 =
      .ok (.error "task-avg" "No valid results received from parties") := by
  refine ⟨rfl, rfl, zeroPartySession _ _, ?_⟩
  have h1 : (executeTaskOnServer managerZero "server-0" "task-avg" okSend okGet
      "low" "audit-1" 3 "cid-1").1 =
      .ok (executeSecureComputation [] okSend okGet "task-avg" "cid-1") := rfl
  rw [h1, zeroPartySession]

/-- Claim C10: in executeAll's per-server loop, a server whose session
completes with a protocol-level error object is still recorded with record
status success carrying that error object in its result field; an
error record arises exactly from a validation failure, carrying the
validation message; and every registered server receives exactly one
record (the loop never stops early). -/
theorem C10_executeAll_records :
    (∀ (g : MPCSecurityGovernance) (server : MPCServer) (task : String)
        (send : Party → Except String Unit) (getr : Party → Except String ℚ)
        (ds aid : String) (now : Nat) (cid t e : String),
      ((validateOperation g { encrypted := true } server.parties ds aid now).1.filter
        fun v => !v.passed).length = 0 →
      executeSecureComputation server.parties send getr task cid = .error t e →
      (executeTaskStep g server task send getr ds aid now cid).1 =
        .success server.name (.error t e)) ∧
    (∀ (g : MPCSecurityGovernance) (server : MPCServer) (task : String)
        (send : Party → Except String Unit) (getr : Party → Except String ℚ)
        (ds aid : String) (now : Nat) (cid : String) (r : String),
      (executeTaskStep g server task send getr ds aid now cid).1 =
        .error server.name r →
      0 < ((validateOperation g { encrypted := true } server.parties ds aid now).1.filter
        fun v => !v.passed).length ∧
      r = securityValidationError
        ((validateOperation g { encrypted := true } server.parties ds aid now).1.filter
          fun v => !v.passed)) ∧
    (∀ (g : MPCSecurityGovernance) (server : MPCServer) (task : String)
        (send : Party → Except String Unit) (getr : Party → Except String ℚ)
        (ds aid : String) (now : Nat) (cid : String),
      0 < ((validateOperation g { encrypted := true } server.parties ds aid now).1.filter
        fun v => !v.passed).length →
      (executeTaskStep g server task send getr ds aid now cid).1 =
        .error server.name (securityValidationError
          ((validateOperation g { encrypted := true } server.parties ds aid now).1.filter
            fun v => !v.passed))) ∧
    (∀ (g : MPCSecurityGovernance) (servers : List MPCServer) (task : String)
        (send : Party → Except String Unit) (getr : Party → Except String ℚ)
        (ds : String) (aids cids : Nat → String) (now i : Nat),
      (executeTaskGo g servers task send getr ds aids cids now i).1.length =
        servers.length) := by
  refine ⟨fun g server task send getr ds aid now cid t e h0 hses => ?_,
    fun g server task send getr ds aid now cid r h => ?_,
    fun g server task send getr ds aid now cid h => ?_,
    fun g servers task send getr ds aids cids now i => ?_⟩
  · simp only [executeTaskStep]
    rw [if_neg (by omega), hses]
  · simp only [executeTaskStep] at h
    by_cases hc : 0 < ((validateOperation g { encrypted := true }
        server.parties ds aid now).1.filter fun v => !v.passed).length
    · rw [if_pos hc] at h
      injection h with hname hmsg
      exact ⟨hc, hmsg.symm⟩
    · rw [if_neg hc] at h
      exact ServerRecord.noConfusion h
  · simp only [executeTaskStep]
    rw [if_pos h]
  · induction servers generalizing g i with
    | nil => rfl
    | cons server rest ih =>
      simp only [executeTaskGo, List.length_cons]
      rw [ih]

/-- Witness for C10: the 0-party server's session fails at aggregation with
sensitivity low, yet its executeAll record has record status success and
carries the error object. -/
theorem C10_executeAll_records_witness :
    (executeTaskStep defaultGovernance zeroPartyServer "task-w" okSend okGet
        "low" "audit-w" 0 "cid-w").1 =
      .success "server-0"
        (.error "task-w" "No valid results received from parties") :=
  C10_executeAll_records.1 defaultGovernance zeroPartyServer "task-w" okSend
    okGet "low" "audit-w" 0 "cid-w" "task-w"
    "No valid results received from parties" (by decide)
    (zeroPartySession "task-w" "cid-w")

end MPC
